import Mathlib

/-
Verification of the BaseService HTTP façade (src/unnamed/part_000) and the
JSendReply envelope model (src/src/app/models/api-response.model.ts).

The embedding models:
  * JavaScript runtime values handled by `transformParameters` (`JsVal`);
  * the external Angular `URLSearchParams` collaborator (`SearchParams`,
    with `set`, `append`, `appendAll` following its documented semantics:
    `set` replaces the value list of a key, `append` pushes onto it,
    `appendAll` appends every value of the other params object);
  * the external `Response` collaborator as the outcome of its JSON-decoding
    operation (`Response.json`: `Except.ok v` when the body parses to `v`,
    `Except.error ()` when `JSON.parse` throws, i.e. the body is empty or
    not valid JSON);
  * single-emission observables as `Except` values, with `.map` and `.catch`
    as the combinators `obsMap` and `obsCatch`.
-/

/-- JavaScript values as dispatched by `transformParameters`: strings,
numbers (restricted to integers, which covers every value the claims use),
booleans, `null`, `Date` objects (carried as epoch milliseconds, rendered
with a zero UTC offset), arrays and plain objects.  A JS object literal is
modelled as its insertion-ordered field list. -/
inductive JsVal where
  | vstr (s : String)
  | vnum (n : Int)
  | vbool (b : Bool)
  | vnull
  | vdate (ms : Nat)
  | varr (elems : List JsVal)
  | vobj (fields : List (String × JsVal))

/-- JavaScript truthiness of a `JsVal` (`""`, `0`, `false` and `null` are
falsy; every object, array and date is truthy). -/
def JsVal.truthy : JsVal → Bool
  | .vstr s => !(s == "")
  | .vnum n => !(n == 0)
  | .vbool b => b
  | .vnull => false
  | .vdate _ => true
  | .varr _ => true
  | .vobj _ => true

/-- Milliseconds per day, used by the `Date` rendering. -/
def msPerDay : Nat := 86400000

/-- Weekday names indexed from Sunday, as produced by
`Date.prototype.toDateString`. -/
def weekdayName : Nat → String
  | 0 => "Sun" | 1 => "Mon" | 2 => "Tue" | 3 => "Wed"
  | 4 => "Thu" | 5 => "Fri" | _ => "Sat"

/-- Month names indexed from January = 1, as produced by
`Date.prototype.toDateString`. -/
def monthName : Nat → String
  | 1 => "Jan" | 2 => "Feb" | 3 => "Mar" | 4 => "Apr"
  | 5 => "May" | 6 => "Jun" | 7 => "Jul" | 8 => "Aug"
  | 9 => "Sep" | 10 => "Oct" | 11 => "Nov" | _ => "Dec"

/-- Zero-pads a number below 10 to two digits (day field of
`toDateString`). -/
def pad2 (n : Nat) : String := if n < 10 then "0" ++ toString n else toString n

/-- Civil calendar date (year, month, day) of a day count since the Unix
epoch, via the standard days-to-civil conversion. -/
def civilFromDays (z : Nat) : Nat × Nat × Nat :=
  let z' := z + 719468
  let era := z' / 146097
  let doe := z' % 146097
  let yoe := (doe - doe / 1460 + doe / 36524 - doe / 146096) / 365
  let doy := doe - (365 * yoe + yoe / 4 - yoe / 100)
  let mp := (5 * doy + 2) / 153
  let d := doy - (153 * mp + 2) / 5 + 1
  let m := if mp < 10 then mp + 3 else mp - 9
  (if m ≤ 2 then yoe + era * 400 + 1 else yoe + era * 400, m, d)

/-- Renders a day count since the epoch as `Www Mmm DD YYYY`, the format of
`Date.prototype.toDateString`. -/
def dateStringOfDays (days : Nat) : String :=
  let wd := weekdayName ((days + 4) % 7)
  let c := civilFromDays days
  wd ++ " " ++ monthName c.2.1 ++ " " ++ pad2 c.2.2 ++ " " ++ toString c.1

/-- `Date.prototype.toDateString` on a date holding `ms` epoch milliseconds
(zero UTC offset): only the day part `ms / msPerDay` reaches the output, so
the rendering has no time component. -/
def dateToDateString (ms : Nat) : String := dateStringOfDays (ms / msPerDay)

/-- Time-of-day part of `Date.prototype.toString`, `hh:mm:ss`. -/
def timeStringOfMs (ms : Nat) : String :=
  let t := ms % msPerDay
  pad2 (t / 3600000) ++ ":" ++ pad2 (t / 60000 % 60) ++ ":" ++ pad2 (t / 1000 % 60)

/-- `Date.prototype.toString` with a zero UTC offset. -/
def dateFullString (ms : Nat) : String :=
  dateToDateString ms ++ " " ++ timeStringOfMs ms ++ " GMT+0000"

mutual

/-- JavaScript `String(v)` coercion of a value: strings unchanged, numbers
and booleans rendered, `null` as `"null"`, dates via `toString`, arrays via
`Array.prototype.join` with `","`, plain objects as `"[object Object]"`. -/
def jsToString : JsVal → String
  | .vstr s => s
  | .vnum n => toString n
  | .vbool b => cond b "true" "false"
  | .vnull => "null"
  | .vdate ms => dateFullString ms
  | .varr vs => jsArrJoin vs
  | .vobj _ => "[object Object]"
termination_by v => 2 * sizeOf v

/-- `Array.prototype.join` with separator `","`, as used by the string
coercion of an array. -/
def jsArrJoin : List JsVal → String
  | [] => ""
  | [v] => jsElemString v
  | v :: rest => jsElemString v ++ "," ++ jsArrJoin rest
termination_by vs => 2 * sizeOf vs

/-- Element rendering of `Array.prototype.join`: `null` becomes the empty
string, every other element is coerced with `String(v)`. -/
def jsElemString : JsVal → String
  | .vnull => ""
  | v => jsToString v
termination_by v => 2 * sizeOf v + 1

end

/-- The external `URLSearchParams` collaborator, modelled as its
insertion-ordered parameter map: a list of keys each holding its list of
values (the string coercion of the values is applied at insertion, matching
what the eventual query-string serialisation produces). -/
abbrev SearchParams := List (String × List String)

/-- The empty `URLSearchParams`. -/
def SearchParams.empty : SearchParams := []

/-- `URLSearchParams.set`: replaces the value list of `k` with the single
value `v`, keeping the key's position; a new key is appended at the end. -/
def SearchParams.set : SearchParams → String → String → SearchParams
  | [], k, v => [(k, [v])]
  | (k', vs) :: rest, k, v =>
      if k' = k then (k', [v]) :: rest else (k', vs) :: SearchParams.set rest k v

/-- `URLSearchParams.append`: pushes `v` onto the value list of `k`; a new
key is appended at the end. -/
def SearchParams.append : SearchParams → String → String → SearchParams
  | [], k, v => [(k, [v])]
  | (k', vs) :: rest, k, v =>
      if k' = k then (k', vs ++ [v]) :: rest else (k', vs) :: SearchParams.append rest k v

/-- `URLSearchParams.appendAll`: appends every value of `other`, key by key
in order, onto `acc`. -/
def SearchParams.appendAll (acc other : SearchParams) : SearchParams :=
  other.foldl (fun a kvs => kvs.2.foldl (fun b v => SearchParams.append b kvs.1 v) a) acc

/-- The keys of a parameter map, in order. -/
def SearchParams.keys (sp : SearchParams) : List String := sp.map Prod.fst

/-- The flat key/value pair list the query-string serialisation of a
parameter map encodes, in order. -/
def SearchParams.toPairs (sp : SearchParams) : List (String × String) :=
  sp.foldr (fun kvs acc => kvs.2.map (fun v => (kvs.1, v)) ++ acc) []

mutual

/-- The `for (let property in obj)` loop body of
`BaseService.transformParameters`, dispatching on the runtime shape of one
value exactly as the source does: `instanceof Date` first, then
`typeof parameter === 'object' && !Array.isArray(parameter)` (which also
receives `null`, since `typeof null === 'object'`), then `Array.isArray`,
then the scalar fallback. -/
def transformEntry (acc : SearchParams) (property : String) (parameter : JsVal) : SearchParams :=
  match parameter with
  | .vdate ms => SearchParams.set acc property (dateToDateString ms)
  | .vobj fields => SearchParams.appendAll acc (transformList SearchParams.empty fields)
  | .vnull => SearchParams.appendAll acc (transformList SearchParams.empty [])
  | .varr elems => elems.foldl (fun a v => SearchParams.append a property (jsToString v)) acc
  | .vstr s => SearchParams.set acc property (jsToString (.vstr s))
  | .vnum n => SearchParams.set acc property (jsToString (.vnum n))
  | .vbool b => SearchParams.set acc property (jsToString (.vbool b))
termination_by 2 * sizeOf parameter + 1

/-- The `for (let property in obj)` iteration of
`BaseService.transformParameters` over the remaining entries, threading the
`urlSearchParams` accumulator.  (In the `null` dispatch above the recursive
call runs over the property list of `null`, which is empty.) -/
def transformList (acc : SearchParams) (l : List (String × JsVal)) : SearchParams :=
  match l with
  | [] => acc
  | (property, parameter) :: rest => transformList (transformEntry acc property parameter) rest
termination_by 2 * sizeOf l

end

/-- `BaseService.transformParameters` (src/unnamed/part_000, lines 119-137):
flattens an object into a fresh `URLSearchParams`. -/
def transformParameters (obj : List (String × JsVal)) : SearchParams :=
  transformList SearchParams.empty obj

/-- The `transformParameters(queryParams)` call sites, where `queryParams`
is optional: iterating `for..in` over `undefined` yields no entries, so an
absent bag produces the empty parameter map. -/
def transformSearch : Option (List (String × JsVal)) → SearchParams
  | none => SearchParams.empty
  | some obj => transformParameters obj

/-- The external `Response` collaborator, reduced to what `BaseService`
reads from it: its HTTP status and the outcome of its JSON-decoding
operation `res.json()` (`JSON.parse` of the body): `Except.ok v` when the
body parses to the value `v`, `Except.error ()` when the parse throws,
i.e. the body is empty or not valid JSON. -/
structure Response where
  status : Nat
  json : Except Unit JsVal

/-- Whether an HTTP status is a success status (2xx). -/
def is2xx (n : Nat) : Bool := decide (200 ≤ n) && decide (n < 300)

/-- A value thrown down the failed branch of the resulting observable:
either the parsed envelope body rethrown by `errorHandler`, or a native
JavaScript error (the `SyntaxError` of a failed `JSON.parse`, or the
`TypeError` raised when `errorHandler` calls `.json()` on a non-`Response`
error). -/
inductive Thrown where
  | envelope (body : JsVal)
  | jsError

/-- The error channel of the observable between `.map` and `.catch`: the
failed `Response` the HTTP client emitted, or an exception thrown inside
the `.map` projection. -/
inductive ObsErr where
  | resp (r : Response)
  | exn

/-- `BaseService.extractData` (src/unnamed/part_000, lines 99-101):
`return res.json() || {}`.  The JSON decode runs first; if it throws, the
exception propagates out of `extractData`.  Otherwise `||` replaces a falsy
parse result with the empty object literal. -/
def extractData (res : Response) : Except Unit JsVal :=
  match res.json with
  | .error e => .error e
  | .ok v => .ok (if v.truthy then v else JsVal.vobj [])

/-- `BaseService.errorHandler` (src/unnamed/part_000, lines 108-111):
`let body = err.json(); return Observable.throw(body)`.  When the error is
a `Response` whose body parses, the parsed body is rethrown as the error
value; when the body parse throws, or when the error is not a `Response`
at all (so `err.json` is not a function), a native JavaScript error is
thrown instead. -/
def errorHandler : ObsErr → Except Thrown JsVal
  | .resp err =>
      match err.json with
      | .ok body => .error (.envelope body)
      | .error _ => .error .jsError
  | .exn => .error .jsError

/-- The rx `.map` combinator on a single-emission observable whose
projection may throw: a thrown projection turns the emission into an error
emission carrying the exception. -/
def obsMap (f : Response → Except Unit JsVal) :
    Except Response Response → Except ObsErr JsVal
  | .ok r =>
      match f r with
      | .ok v => .ok v
      | .error _ => .error .exn
  | .error r => .error (.resp r)

/-- The rx `.catch` combinator on a single-emission observable: a success
emission passes through, an error emission is replaced by the observable
the handler returns. -/
def obsCatch (h : ObsErr → Except Thrown JsVal) :
    Except ObsErr JsVal → Except Thrown JsVal
  | .ok v => .ok v
  | .error e => h e

/-- The state of a `BaseService` instance: its `url` field (populated at
construction). -/
structure BaseService where
  url : String

/-- The `BaseService` constructor (src/unnamed/part_000, lines 16-19): it
receives the HTTP client and a service name argument (called the service
prefix in the source documentation), and initialises `this.url` to the
empty string; the second argument is never read. -/
def BaseService.make (pfx : String) : BaseService :=
  { url := "" }

/-- The HTTP request an operation hands to the external HTTP client: the
request URL, the `search` query parameters, and the request body (absent
for GET and DELETE, modelled as the `null` default of `post`/`put`). -/
structure HttpRequest where
  url : String
  search : SearchParams
  body : JsVal

/-- The external HTTP client collaborator, as the outcome it produces for a
request: a successful (2xx) `Response` on the success channel or a failed
`Response` on the error channel. -/
abbrev Transport := HttpRequest → Except Response Response

/-- The request `BaseService.get` builds (src/unnamed/part_000, lines
27-36): URL `this.url + "/" + endpoint`, with the flattened query
parameters as `search`. -/
def BaseService.getRequest (s : BaseService) (endpoint : String)
    (queryParams : Option (List (String × JsVal))) : HttpRequest :=
  { url := s.url ++ "/" ++ endpoint, search := transformSearch queryParams, body := .vnull }

/-- `BaseService.get`: issues the GET and pipes the response through
`.map(res => this.extractData(res)).catch(this.errorHandler)`. -/
def BaseService.get (s : BaseService) (transport : Transport) (endpoint : String)
    (queryParams : Option (List (String × JsVal))) : Except Thrown JsVal :=
  obsCatch errorHandler (obsMap extractData (transport (s.getRequest endpoint queryParams)))

/-- The request `BaseService.getExternal` builds (src/unnamed/part_000,
lines 44-51): the caller's URL as given, with the flattened query
parameters as `search`. -/
def BaseService.getExternalRequest (s : BaseService) (url : String)
    (queryParams : Option (List (String × JsVal))) : HttpRequest :=
  { url := url, search := transformSearch queryParams, body := .vnull }

/-- `BaseService.getExternal`: issues the GET against the given URL and
pipes the response through the same `.map`/`.catch` stages as `get`. -/
def BaseService.getExternal (s : BaseService) (transport : Transport) (url : String)
    (queryParams : Option (List (String × JsVal))) : Except Thrown JsVal :=
  obsCatch errorHandler (obsMap extractData (transport (s.getExternalRequest url queryParams)))

/-- The request `BaseService.post` builds (src/unnamed/part_000, lines
59-64): URL `this.url + "/" + endpoint` with `data` as the body. -/
def BaseService.postRequest (s : BaseService) (endpoint : String) (data : JsVal) : HttpRequest :=
  { url := s.url ++ "/" ++ endpoint, search := SearchParams.empty, body := data }

/-- `BaseService.post`: issues the POST and pipes the response through the
same `.map`/`.catch` stages as `get`. -/
def BaseService.post (s : BaseService) (transport : Transport) (endpoint : String)
    (data : JsVal) : Except Thrown JsVal :=
  obsCatch errorHandler (obsMap extractData (transport (s.postRequest endpoint data)))

/-- The request `BaseService.put` builds (src/unnamed/part_000, lines
72-77): URL `this.url + "/" + endpoint` with `data` as the body. -/
def BaseService.putRequest (s : BaseService) (endpoint : String) (data : JsVal) : HttpRequest :=
  { url := s.url ++ "/" ++ endpoint, search := SearchParams.empty, body := data }

/-- `BaseService.put`: issues the PUT and pipes the response through the
same `.map`/`.catch` stages as `get`. -/
def BaseService.put (s : BaseService) (transport : Transport) (endpoint : String)
    (data : JsVal) : Except Thrown JsVal :=
  obsCatch errorHandler (obsMap extractData (transport (s.putRequest endpoint data)))

/-- The request `BaseService.delete` builds (src/unnamed/part_000, lines
85-92): URL `this.url + "/" + endpoint`, with the flattened query
parameters as `search`. -/
def BaseService.deleteRequest (s : BaseService) (endpoint : String)
    (queryParams : Option (List (String × JsVal))) : HttpRequest :=
  { url := s.url ++ "/" ++ endpoint, search := transformSearch queryParams, body := .vnull }

/-- `BaseService.delete`: issues the DELETE and pipes the response through
the same `.map`/`.catch` stages as `get`. -/
def BaseService.delete (s : BaseService) (transport : Transport) (endpoint : String)
    (queryParams : Option (List (String × JsVal))) : Except Thrown JsVal :=
  obsCatch errorHandler (obsMap extractData (transport (s.deleteRequest endpoint queryParams)))

/-- Whether a field with key `k` is present in an object's field list. -/
def hasKey (fields : List (String × JsVal)) (k : String) : Bool :=
  fields.any (fun p => p.1 == k)

/-- Whether a parsed JSON value is envelope-shaped, i.e. an object carrying
the four `JSendReply` fields `data`, `message`, `status` and `statusCode`
(src/src/app/models/api-response.model.ts). -/
def isEnvelope : JsVal → Bool
  | .vobj fields =>
      hasKey fields "data" && hasKey fields "message" &&
        hasKey fields "status" && hasKey fields "statusCode"
  | _ => false

/-- Whether a value is a scalar for the flattening dispatch: neither a
date, nor an array, nor (`null` included) an object. -/
def isScalar : JsVal → Bool
  | .vstr _ => true
  | .vnum _ => true
  | .vbool _ => true
  | _ => false

/-- Well-formedness invariant every `URLSearchParams` built by the service
satisfies: its keys are distinct and every key holds at least one value. -/
def SearchParams.WF (sp : SearchParams) : Prop :=
  sp.keys.Nodup ∧ ∀ p ∈ sp, p.2 ≠ []

theorem SearchParams.empty_WF : SearchParams.empty.WF := by
  constructor
  · simp [SearchParams.empty, SearchParams.keys]
  · simp [SearchParams.empty]

theorem transformList_nil (acc : SearchParams) : transformList acc [] = acc := by
  simp [transformList]

theorem transformList_cons (acc : SearchParams) (p : String) (v : JsVal)
    (rest : List (String × JsVal)) :
    transformList acc ((p, v) :: rest) = transformList (transformEntry acc p v) rest := by
  simp [transformList]

theorem SearchParams.keys_cons (p : String × List String) (rest : SearchParams) :
    SearchParams.keys (p :: rest) = p.1 :: SearchParams.keys rest := rfl

theorem SearchParams.set_keys (acc : SearchParams) (k v : String) :
    (SearchParams.set acc k v).keys =
      if k ∈ acc.keys then acc.keys else acc.keys ++ [k] := by
  induction acc with
  | nil => simp [SearchParams.set, SearchParams.keys]
  | cons q rest ih =>
    obtain ⟨k', vs⟩ := q
    by_cases h : k' = k
    · subst h
      simp [SearchParams.set, SearchParams.keys_cons]
    · by_cases hm : k ∈ SearchParams.keys rest <;>
        simp [SearchParams.set, h, SearchParams.keys_cons, hm, Ne.symm h, ih]

theorem SearchParams.append_keys (acc : SearchParams) (k v : String) :
    (SearchParams.append acc k v).keys =
      if k ∈ acc.keys then acc.keys else acc.keys ++ [k] := by
  induction acc with
  | nil => simp [SearchParams.append, SearchParams.keys]
  | cons q rest ih =>
    obtain ⟨k', vs⟩ := q
    by_cases h : k' = k
    · subst h
      simp [SearchParams.append, SearchParams.keys_cons]
    · by_cases hm : k ∈ SearchParams.keys rest <;>
        simp [SearchParams.append, h, SearchParams.keys_cons, hm, Ne.symm h, ih]

theorem SearchParams.set_mem (acc : SearchParams) (k v : String) (p : String × List String)
    (hp : p ∈ SearchParams.set acc k v) : p ∈ acc ∨ p.2 = [v] := by
  induction acc with
  | nil =>
    simp [SearchParams.set] at hp
    simp [hp]
  | cons q rest ih =>
    obtain ⟨k', vs⟩ := q
    by_cases h : k' = k
    · subst h
      simp [SearchParams.set] at hp
      rcases hp with hp | hp
      · simp [hp]
      · exact Or.inl (by simp [hp])
    · simp [SearchParams.set, h] at hp
      rcases hp with hp | hp
      · exact Or.inl (by simp [hp])
      · rcases ih hp with h' | h'
        · exact Or.inl (by simp [h'])
        · exact Or.inr h'

theorem SearchParams.append_mem (acc : SearchParams) (k v : String) (p : String × List String)
    (hp : p ∈ SearchParams.append acc k v) : p ∈ acc ∨ p.2 ≠ [] := by
  induction acc with
  | nil =>
    simp [SearchParams.append] at hp
    simp [hp]
  | cons q rest ih =>
    obtain ⟨k', vs⟩ := q
    by_cases h : k' = k
    · subst h
      simp [SearchParams.append] at hp
      rcases hp with hp | hp
      · simp [hp]
      · exact Or.inl (by simp [hp])
    · simp [SearchParams.append, h] at hp
      rcases hp with hp | hp
      · exact Or.inl (by simp [hp])
      · rcases ih hp with h' | h'
        · exact Or.inl (by simp [h'])
        · exact Or.inr h'

theorem SearchParams.keys_nodup_of_shape (keys : List String) (k : String)
    (h : keys.Nodup) :
    (if k ∈ keys then keys else keys ++ [k]).Nodup := by
  split
  · exact h
  · simp [List.nodup_append, h]
    intro hk
    simp_all

theorem SearchParams.set_WF (acc : SearchParams) (k v : String) (h : acc.WF) :
    (SearchParams.set acc k v).WF := by
  refine ⟨?_, ?_⟩
  · rw [SearchParams.set_keys]
    exact SearchParams.keys_nodup_of_shape _ _ h.1
  · intro p hp
    rcases SearchParams.set_mem acc k v p hp with h' | h'
    · exact h.2 p h'
    · simp [h']

theorem SearchParams.append_WF (acc : SearchParams) (k v : String) (h : acc.WF) :
    (SearchParams.append acc k v).WF := by
  refine ⟨?_, ?_⟩
  · rw [SearchParams.append_keys]
    exact SearchParams.keys_nodup_of_shape _ _ h.1
  · intro p hp
    rcases SearchParams.append_mem acc k v p hp with h' | h'
    · exact h.2 p h'
    · exact h'

theorem SearchParams.foldl_append_WF {α : Type} (vs : List α) (f : α → String)
    (acc : SearchParams) (k : String) (h : acc.WF) :
    (vs.foldl (fun b v => SearchParams.append b k (f v)) acc).WF := by
  induction vs generalizing acc with
  | nil => simpa using h
  | cons v rest ih => exact ih _ (SearchParams.append_WF acc k (f v) h)

theorem SearchParams.appendAll_WF (other acc : SearchParams) (h : acc.WF) :
    (SearchParams.appendAll acc other).WF := by
  induction other generalizing acc with
  | nil => simpa [SearchParams.appendAll] using h
  | cons q rest ih =>
    simp only [SearchParams.appendAll, List.foldl_cons] at ih ⊢
    exact ih _ (SearchParams.foldl_append_WF q.2 (fun v => v) acc q.1 h)

theorem transformEntry_WF (acc : SearchParams) (p : String) (v : JsVal) (h : acc.WF) :
    (transformEntry acc p v).WF := by
  cases v <;> simp only [transformEntry] <;>
    first
      | exact SearchParams.set_WF _ _ _ h
      | exact SearchParams.appendAll_WF _ _ h
      | exact SearchParams.foldl_append_WF _ jsToString _ _ h

theorem transformList_WF (l : List (String × JsVal)) :
    ∀ acc : SearchParams, acc.WF → (transformList acc l).WF := by
  induction l with
  | nil => intro acc h; simpa [transformList_nil] using h
  | cons q rest ih =>
    intro acc h
    obtain ⟨p, v⟩ := q
    rw [transformList_cons]
    exact ih _ (transformEntry_WF acc p v h)

theorem transformParameters_WF (obj : List (String × JsVal)) :
    (transformParameters obj).WF :=
  transformList_WF obj SearchParams.empty SearchParams.empty_WF

theorem SearchParams.append_mid (b₁ b₂ : SearchParams) (k : String) (ws : List String)
    (v : String) (hk : k ∉ b₁.keys) :
    SearchParams.append (b₁ ++ (k, ws) :: b₂) k v = b₁ ++ (k, ws ++ [v]) :: b₂ := by
  induction b₁ with
  | nil => simp [SearchParams.append]
  | cons q rest ih =>
    obtain ⟨k', us⟩ := q
    simp [SearchParams.keys_cons] at hk
    simp [SearchParams.append, Ne.symm hk.1, ih hk.2]

theorem SearchParams.foldl_append_mid (vs : List String) (b₁ b₂ : SearchParams) (k : String)
    (ws : List String) (hk : k ∉ b₁.keys) :
    vs.foldl (fun a v => SearchParams.append a k v) (b₁ ++ (k, ws) :: b₂) =
      b₁ ++ (k, ws ++ vs) :: b₂ := by
  induction vs generalizing ws with
  | nil => simp
  | cons v rest ih =>
    rw [List.foldl_cons, SearchParams.append_mid b₁ b₂ k ws v hk, ih (ws ++ [v])]
    simp

theorem SearchParams.append_fresh (acc : SearchParams) (k v : String) (hk : k ∉ acc.keys) :
    SearchParams.append acc k v = acc ++ [(k, [v])] := by
  induction acc with
  | nil => simp [SearchParams.append]
  | cons q rest ih =>
    obtain ⟨k', us⟩ := q
    simp [SearchParams.keys_cons] at hk
    simp [SearchParams.append, Ne.symm hk.1, ih hk.2]

theorem SearchParams.foldl_append_fresh (vs : List String) (acc : SearchParams) (k : String)
    (hk : k ∉ acc.keys) (hne : vs ≠ []) :
    vs.foldl (fun a v => SearchParams.append a k v) acc = acc ++ [(k, vs)] := by
  match vs with
  | [] => exact absurd rfl hne
  | v :: rest =>
    rw [List.foldl_cons, SearchParams.append_fresh acc k v hk]
    have := SearchParams.foldl_append_mid rest acc [] k [v] hk
    simpa using this

theorem SearchParams.not_mem_keys_append_single (acc : SearchParams) (k : String)
    (x : List String) (p : String) (h1 : p ∉ acc.keys) (h2 : p ≠ k) :
    p ∉ SearchParams.keys (acc ++ [(k, x)]) := by
  intro hmem
  rw [SearchParams.keys, List.map_append] at hmem
  rcases List.mem_append.mp hmem with h | h
  · exact h1 h
  · simp at h
    exact h2 h

theorem SearchParams.appendAll_fresh (other : SearchParams) (acc : SearchParams)
    (hWF : SearchParams.WF other) (hdisj : ∀ key ∈ SearchParams.keys other, key ∉ acc.keys) :
    SearchParams.appendAll acc other = acc ++ other := by
  induction other generalizing acc with
  | nil => simp [SearchParams.appendAll]
  | cons q rest ih =>
    obtain ⟨k, vs⟩ := q
    have hkacc : k ∉ acc.keys := hdisj k (by simp [SearchParams.keys_cons])
    have hvs : vs ≠ [] := hWF.2 (k, vs) (by simp)
    have hkeys : (SearchParams.keys ((k, vs) :: rest)).Nodup := hWF.1
    rw [SearchParams.keys_cons] at hkeys
    simp only [SearchParams.appendAll, List.foldl_cons] at ih ⊢
    rw [SearchParams.foldl_append_fresh vs acc k hkacc hvs]
    have hWF' : SearchParams.WF rest :=
      ⟨(List.nodup_cons.mp hkeys).2, fun p hp => hWF.2 p (by simp [hp])⟩
    have hdisj' : ∀ key ∈ SearchParams.keys rest, key ∉ SearchParams.keys (acc ++ [(k, vs)]) := by
      intro key hkey
      have h1 : key ∉ acc.keys := hdisj key (by simp [SearchParams.keys_cons, hkey])
      have h2 : key ≠ k := by
        intro hkk
        subst hkk
        exact (List.nodup_cons.mp hkeys).1 hkey
      exact SearchParams.not_mem_keys_append_single acc k vs key h1 h2
    have := ih (acc ++ [(k, vs)]) hWF' hdisj'
    simpa using this

theorem SearchParams.appendAll_empty (sp : SearchParams) (h : sp.WF) :
    SearchParams.appendAll SearchParams.empty sp = sp := by
  have := SearchParams.appendAll_fresh sp SearchParams.empty h
    (by intro key hk; simp [SearchParams.empty, SearchParams.keys])
  simpa [SearchParams.empty] using this

theorem SearchParams.set_fresh (acc : SearchParams) (k v : String) (hk : k ∉ acc.keys) :
    SearchParams.set acc k v = acc ++ [(k, [v])] := by
  induction acc with
  | nil => simp [SearchParams.set]
  | cons q rest ih =>
    obtain ⟨k', us⟩ := q
    simp [SearchParams.keys_cons] at hk
    simp [SearchParams.set, Ne.symm hk.1, ih hk.2]

theorem transformEntry_scalar (acc : SearchParams) (p : String) (v : JsVal)
    (h : isScalar v = true) :
    transformEntry acc p v = SearchParams.set acc p (jsToString v) := by
  cases v <;> simp_all [isScalar, transformEntry]

theorem transformEntry_vnull (acc : SearchParams) (p : String) :
    transformEntry acc p JsVal.vnull = acc := by
  simp [transformEntry, transformList_nil, SearchParams.appendAll, SearchParams.empty]

theorem transformList_append (acc : SearchParams) (l₁ l₂ : List (String × JsVal)) :
    transformList acc (l₁ ++ l₂) = transformList (transformList acc l₁) l₂ := by
  induction l₁ generalizing acc with
  | nil => simp [transformList_nil]
  | cons q rest ih =>
    obtain ⟨p, v⟩ := q
    rw [List.cons_append, transformList_cons, transformList_cons, ih]

theorem transformList_scalars (obj : List (String × JsVal)) :
    ∀ acc : SearchParams, (∀ p ∈ obj, isScalar p.2 = true) →
      (obj.map Prod.fst).Nodup → (∀ p ∈ obj, p.1 ∉ acc.keys) →
      transformList acc obj = acc ++ obj.map (fun p => (p.1, [jsToString p.2])) := by
  induction obj with
  | nil => intro acc _ _ _; simp [transformList_nil]
  | cons q rest ih =>
    intro acc hs hn hk
    obtain ⟨k, v⟩ := q
    rw [transformList_cons,
      transformEntry_scalar acc k v (hs (k, v) (by simp)),
      SearchParams.set_fresh acc k (jsToString v) (hk (k, v) (by simp))]
    rw [List.map_cons] at hn
    obtain ⟨hk0, hn'⟩ := List.nodup_cons.mp hn
    have hk' : ∀ p ∈ rest, p.1 ∉ SearchParams.keys (acc ++ [(k, [jsToString v])]) := by
      intro p hp
      have h1 : p.1 ∉ acc.keys := hk p (by simp [hp])
      have h2 : p.1 ≠ k := by
        intro hkk
        have hm : p.1 ∈ rest.map Prod.fst := List.mem_map_of_mem Prod.fst hp
        rw [hkk] at hm
        exact hk0 hm
      exact SearchParams.not_mem_keys_append_single acc k [jsToString v] p.1 h1 h2
    rw [ih _ (fun p hp => hs p (by simp [hp])) hn' hk']
    simp

theorem SearchParams.toPairs_single_values (l : List (String × JsVal)) :
    SearchParams.toPairs (l.map (fun p => (p.1, [jsToString p.2]))) =
      l.map (fun p => (p.1, jsToString p.2)) := by
  induction l with
  | nil => simp [SearchParams.toPairs]
  | cons q rest ih => simp [SearchParams.toPairs, List.foldr_cons] at ih ⊢; exact ih

theorem isEnvelope_truthy (v : JsVal) (h : isEnvelope v = true) : v.truthy = true := by
  cases v <;> simp_all [isEnvelope, JsVal.truthy]

/-- Claim C1 (evaluation at the failing input): the constructor is called
with the service name `"auth"`, yet every operation's request URL is
`"/todos"`, not `"auth" + "/" + "todos"` — the constructor discards its
second argument and initialises `this.url` to the empty string, so the
configured name never reaches the URL. -/
theorem ctor_discards_service_name :
    ((BaseService.make "auth").getRequest "todos" none).url = "/todos" ∧
    ((BaseService.make "auth").postRequest "todos" JsVal.vnull).url = "/todos" ∧
    ((BaseService.make "auth").putRequest "todos" JsVal.vnull).url = "/todos" ∧
    ((BaseService.make "auth").deleteRequest "todos" none).url = "/todos" ∧
    "/todos" ≠ "auth" ++ "/" ++ "todos" :=
  ⟨rfl, rfl, rfl, rfl, by decide⟩

/-- Claim C2 (counterexample): `extractData` does not behave as claimed. A
response whose body parses to the falsy value `false` does not yield the
parsed value back, and a response whose body is empty or unparseable (its
JSON decode throws) does not yield a success at all: the exception
propagates out of `extractData`. -/
theorem extractData_claim_counterexample :
    extractData { status := 200, json := Except.ok (JsVal.vbool false) } ≠
      Except.ok (JsVal.vbool false) ∧
    (extractData { status := 200, json := Except.error () }).isOk = false := by
  constructor
  · simp [extractData, JsVal.truthy]
  · rfl

/-- Claim C2 (amended): when the body parses, `extractData` returns the
parsed value if it is truthy and the empty envelope-shaped object if it is
falsy; when the body is empty or unparseable, the JSON decode's exception
propagates out of `extractData`, and the surrounding pipeline then turns
the 2xx response into a failed result carrying a native error. -/
theorem extractData_amended (res : Response) :
    (∀ v, res.json = Except.ok v →
        extractData res = Except.ok (if v.truthy then v else JsVal.vobj [])) ∧
    (∀ pe, res.json = Except.error pe →
        extractData res = Except.error pe ∧
        ∀ (s : BaseService) (e : String) (qp : Option (List (String × JsVal)))
          (tr : Transport), (∀ q, tr q = Except.ok res) →
            s.get tr e qp = Except.error Thrown.jsError) := by
  constructor
  · intro v hv
    simp [extractData, hv]
  · intro pe hpe
    constructor
    · simp [extractData, hpe]
    · intro s e qp tr htr
      simp [BaseService.get, htr, obsMap, obsCatch, errorHandler, extractData, hpe]

theorem extractData_amended_witness :
    extractData { status := 200, json := Except.ok JsVal.vnull } = Except.ok (JsVal.vobj []) ∧
    extractData { status := 200, json := Except.error () } = Except.error () ∧
    (BaseService.make "x").get (fun _ => Except.ok { status := 200, json := Except.error () })
      "items" none = Except.error Thrown.jsError := by
  refine ⟨?_, ?_, ?_⟩
  · have h := (extractData_amended { status := 200, json := Except.ok JsVal.vnull }).1
      JsVal.vnull rfl
    simpa [JsVal.truthy] using h
  · exact ((extractData_amended { status := 200, json := Except.error () }).2 () rfl).1
  · exact ((extractData_amended { status := 200, json := Except.error () }).2 () rfl).2
      (BaseService.make "x") "items" none _ (fun _ => rfl)

/-- Claim C3: when the transport yields a failed (non-2xx) response whose
body parses to an envelope value, every operation produces a failed result
whose error payload is exactly that envelope — `errorHandler` rethrows the
parsed body unchanged, so all its fields are preserved. -/
theorem failed_envelope_propagated (s : BaseService) (e u : String)
    (qp : Option (List (String × JsVal))) (d : JsVal) (tr : Transport)
    (err : Response) (envJ : JsVal)
    (htr : ∀ q, tr q = Except.error err)
    (hst : is2xx err.status = false)
    (hjson : err.json = Except.ok envJ)
    (henv : isEnvelope envJ = true) :
    s.get tr e qp = Except.error (Thrown.envelope envJ) ∧
    s.getExternal tr u qp = Except.error (Thrown.envelope envJ) ∧
    s.post tr e d = Except.error (Thrown.envelope envJ) ∧
    s.put tr e d = Except.error (Thrown.envelope envJ) ∧
    s.delete tr e qp = Except.error (Thrown.envelope envJ) := by
  refine ⟨?_, ?_, ?_, ?_, ?_⟩ <;>
    simp [BaseService.get, BaseService.getExternal, BaseService.post, BaseService.put,
      BaseService.delete, htr, obsMap, obsCatch, errorHandler, hjson]

theorem failed_envelope_propagated_witness :
    (BaseService.make "todo").get
        (fun _ => Except.error { status := 404, json := Except.ok (JsVal.vobj
          [("data", JsVal.vnull), ("message", JsVal.vstr "not found"),
            ("status", JsVal.vstr "error"), ("statusCode", JsVal.vnum 404)]) })
        "items" none =
      Except.error (Thrown.envelope (JsVal.vobj
        [("data", JsVal.vnull), ("message", JsVal.vstr "not found"),
          ("status", JsVal.vstr "error"), ("statusCode", JsVal.vnum 404)])) :=
  (failed_envelope_propagated (BaseService.make "todo") "items" "u" none JsVal.vnull
    (fun _ => Except.error { status := 404, json := Except.ok (JsVal.vobj
      [("data", JsVal.vnull), ("message", JsVal.vstr "not found"),
        ("status", JsVal.vstr "error"), ("statusCode", JsVal.vnum 404)]) })
    { status := 404, json := Except.ok (JsVal.vobj
      [("data", JsVal.vnull), ("message", JsVal.vstr "not found"),
        ("status", JsVal.vstr "error"), ("statusCode", JsVal.vnum 404)]) }
    (JsVal.vobj [("data", JsVal.vnull), ("message", JsVal.vstr "not found"),
      ("status", JsVal.vstr "error"), ("statusCode", JsVal.vnum 404)])
    (fun _ => rfl) rfl rfl (by decide)).1

/-- Claim C4: when the transport yields a successful (2xx) response whose
body parses to an envelope value, every operation produces a success
carrying exactly that envelope — an envelope is an object, objects are
truthy, so `extractData` passes the parsed value through unchanged and no
field (in particular `status` and `statusCode`) is mutated. -/
theorem success_envelope_preserved (s : BaseService) (e u : String)
    (qp : Option (List (String × JsVal))) (d : JsVal) (tr : Transport)
    (res : Response) (envJ : JsVal)
    (htr : ∀ q, tr q = Except.ok res)
    (hst : is2xx res.status = true)
    (hjson : res.json = Except.ok envJ)
    (henv : isEnvelope envJ = true) :
    s.get tr e qp = Except.ok envJ ∧
    s.getExternal tr u qp = Except.ok envJ ∧
    s.post tr e d = Except.ok envJ ∧
    s.put tr e d = Except.ok envJ ∧
    s.delete tr e qp = Except.ok envJ := by
  have ht := isEnvelope_truthy envJ henv
  refine ⟨?_, ?_, ?_, ?_, ?_⟩ <;>
    simp [BaseService.get, BaseService.getExternal, BaseService.post, BaseService.put,
      BaseService.delete, htr, obsMap, obsCatch, extractData, hjson, ht]

theorem success_envelope_preserved_witness :
    (BaseService.make "todo").get
        (fun _ => Except.ok { status := 200, json := Except.ok (JsVal.vobj
          [("data", JsVal.vobj [("id", JsVal.vnum 1)]), ("message", JsVal.vstr "ok"),
            ("status", JsVal.vstr "success"), ("statusCode", JsVal.vnum 200)]) })
        "items" none =
      Except.ok (JsVal.vobj
        [("data", JsVal.vobj [("id", JsVal.vnum 1)]), ("message", JsVal.vstr "ok"),
          ("status", JsVal.vstr "success"), ("statusCode", JsVal.vnum 200)]) :=
  (success_envelope_preserved (BaseService.make "todo") "items" "u" none JsVal.vnull
    (fun _ => Except.ok { status := 200, json := Except.ok (JsVal.vobj
      [("data", JsVal.vobj [("id", JsVal.vnum 1)]), ("message", JsVal.vstr "ok"),
        ("status", JsVal.vstr "success"), ("statusCode", JsVal.vnum 200)]) })
    { status := 200, json := Except.ok (JsVal.vobj
      [("data", JsVal.vobj [("id", JsVal.vnum 1)]), ("message", JsVal.vstr "ok"),
        ("status", JsVal.vstr "success"), ("statusCode", JsVal.vnum 200)]) }
    (JsVal.vobj [("data", JsVal.vobj [("id", JsVal.vnum 1)]), ("message", JsVal.vstr "ok"),
      ("status", JsVal.vstr "success"), ("statusCode", JsVal.vnum 200)])
    (fun _ => rfl) rfl rfl (by decide)).1

/-- Claim C5: a nested non-array object value is flattened recursively and
its pairs are merged into the outer result under their own key names — the
flattening of a bag holding only the nested object equals the flattening
of the inner object itself, with no trace of the parent key, and in
general the entry merges the inner flattening into the running result via
`appendAll`. -/
theorem nested_object_flat_merge (x : String) (inner : List (String × JsVal)) :
    transformParameters [(x, JsVal.vobj inner)] = transformParameters inner ∧
    ∀ acc : SearchParams, transformEntry acc x (JsVal.vobj inner) =
      SearchParams.appendAll acc (transformParameters inner) := by
  constructor
  · unfold transformParameters
    rw [transformList_cons, transformList_nil]
    simp only [transformEntry]
    exact SearchParams.appendAll_empty _ (transformList_WF inner _ SearchParams.empty_WF)
  · intro acc
    simp [transformEntry, transformParameters]

/-- Claim C6: an array value `[a, b, c]` under key `k` is encoded as three
pairs, each keyed `k`, carrying the string coercions of `a`, `b`, `c` in
the array's order. -/
theorem array_value_repeated_pairs (k : String) (a b c : JsVal) :
    SearchParams.toPairs (transformParameters [(k, JsVal.varr [a, b, c])]) =
      [(k, jsToString a), (k, jsToString b), (k, jsToString c)] := by
  unfold transformParameters
  rw [transformList_cons, transformList_nil]
  simp [transformEntry, SearchParams.append, SearchParams.empty, SearchParams.toPairs]

/-- Claim C7: a date value under key `k` yields the single pair holding its
`toDateString` rendering, and that rendering depends only on the calendar
day `ms / msPerDay`, so it carries no time component. -/
theorem date_value_date_only (k : String) (ms₁ ms₂ : Nat)
    (h : ms₁ / msPerDay = ms₂ / msPerDay) :
    transformParameters [(k, JsVal.vdate ms₁)] = [(k, [dateToDateString ms₁])] ∧
    dateToDateString ms₁ = dateToDateString ms₂ := by
  constructor
  · unfold transformParameters
    rw [transformList_cons, transformList_nil]
    simp [transformEntry, SearchParams.set, SearchParams.empty]
  · unfold dateToDateString
    rw [h]

theorem date_value_date_only_witness :
    transformParameters [("from", JsVal.vdate 3600000)] =
      [("from", [dateToDateString 3600000])] ∧
    dateToDateString 3600000 = dateToDateString 7200000 :=
  date_value_date_only "from" 3600000 7200000 rfl

/-- Claim C8: a bag whose values are all scalars (and whose keys, being the
keys of a JavaScript object, are distinct) flattens to exactly one pair
per key, each value coerced to its string form, in bag order. -/
theorem scalar_bag_one_pair_per_key (obj : List (String × JsVal))
    (hs : ∀ p ∈ obj, isScalar p.2 = true)
    (hn : (obj.map Prod.fst).Nodup) :
    transformParameters obj = obj.map (fun p => (p.1, [jsToString p.2])) ∧
    SearchParams.toPairs (transformParameters obj) =
      obj.map (fun p => (p.1, jsToString p.2)) := by
  have h := transformList_scalars obj SearchParams.empty hs hn
    (by intro p hp; simp [SearchParams.empty, SearchParams.keys])
  have h1 : transformParameters obj = obj.map (fun p => (p.1, [jsToString p.2])) := by
    simpa [transformParameters, SearchParams.empty] using h
  exact ⟨h1, by rw [h1]; exact SearchParams.toPairs_single_values obj⟩

theorem scalar_bag_one_pair_per_key_witness :
    transformParameters [("a", JsVal.vstr "x"), ("b", JsVal.vnum 2), ("c", JsVal.vbool true)] =
      [("a", [jsToString (JsVal.vstr "x")]), ("b", [jsToString (JsVal.vnum 2)]),
        ("c", [jsToString (JsVal.vbool true)])] ∧
    SearchParams.toPairs (transformParameters
        [("a", JsVal.vstr "x"), ("b", JsVal.vnum 2), ("c", JsVal.vbool true)]) =
      [("a", jsToString (JsVal.vstr "x")), ("b", jsToString (JsVal.vnum 2)),
        ("c", jsToString (JsVal.vbool true))] := by
  have h := scalar_bag_one_pair_per_key
    [("a", JsVal.vstr "x"), ("b", JsVal.vnum 2), ("c", JsVal.vbool true)]
    (by decide) (by decide)
  exact ⟨by simpa using h.1, by simpa using h.2⟩

/-- Claim C9: `getExternal` issues its request against the given URL
verbatim — independent of the instance's stored `url`, as the equality
across two arbitrary instances shows — and, given the same transport
outcome, produces exactly the result `get` produces, i.e. applies the same
envelope extraction and error handling. -/
theorem getExternal_url_verbatim (s s' : BaseService) (u e : String)
    (qp : Option (List (String × JsVal))) (r : Except Response Response) :
    (s.getExternalRequest u qp).url = u ∧
    s.getExternal (fun _ => r) u qp = s'.get (fun _ => r) e qp :=
  ⟨rfl, rfl⟩

/-- Claim C10: a `null`-valued entry contributes nothing to the flattened
encoding — `typeof null` is `'object'`, so `null` takes the nested-object
branch, the recursive `for..in` over `null` yields no pairs, and the
`appendAll` of an empty parameter map leaves the result unchanged — hence
a bag with the entry flattens exactly like the bag without it. -/
theorem null_value_dropped (pre post : List (String × JsVal)) (k : String) :
    transformParameters (pre ++ (k, JsVal.vnull) :: post) =
      transformParameters (pre ++ post) := by
  unfold transformParameters
  rw [transformList_append, transformList_append, transformList_cons, transformEntry_vnull]
